import Mathlib

/-!
# Verification of the fpyx request-fingerprinting core

Shallow embedding of the fpyx TypeScript library: the client-IP resolution
pipeline (`extractClientIp`, `parseForwarded`, `cleanForwardedIdentifier`,
`takeFirstListEntry`, `normalizeIpCandidate`), the payload assembler
(`buildParts`), the FNV-1a 64-bit hash (`fnv1a64Hex`) and the top-level
`fingerprint` function.

JavaScript strings are modelled as Lean `String`; the JS string operations
used by the source (`trim`, `split` on a single-character separator,
`indexOf`, `lastIndexOf`, `slice`, `startsWith`, `endsWith`, `toLowerCase`)
are modelled below on `List Char`. Machine 64-bit arithmetic
(`BigInt ... & 0xffffffffffffffffn`) is modelled as `Nat` with explicit
reduction modulo `2 ^ 64`.
-/

namespace Fpyx

/-- The whitespace characters removed by the JavaScript `String.prototype.trim`
(restricted to the ASCII range, which covers every header value handled here). -/
def isJsWhitespace (c : Char) : Bool :=
  c = ' ' || c = '\t' || c = '\n' || c = '\r' || c = '\x0b' || c = '\x0c'

/-- Remove leading and trailing whitespace from a character list. -/
def trimChars (l : List Char) : List Char :=
  ((l.dropWhile isJsWhitespace).reverse.dropWhile isJsWhitespace).reverse

/-- Model of the JavaScript `value.trim()`. -/
def jsTrim (s : String) : String :=
  String.mk (trimChars s.toList)

/-- ASCII lower-casing of one character, as `String.prototype.toLowerCase`
acts on the ASCII range. -/
def lowerChar (c : Char) : Char :=
  if 'A' ≤ c && c ≤ 'Z' then Char.ofNat (c.toNat + 32) else c

/-- Model of the JavaScript `value.toLowerCase()` (ASCII range). -/
def jsToLower (s : String) : String :=
  String.mk (s.toList.map lowerChar)

/-- Model of the JavaScript `value.split(sep)` for a one-character separator:
splits at every occurrence, keeping empty pieces, and yields `[""]` on the
empty string. -/
def splitChar (sep : Char) : List Char → List (List Char)
  | [] => [[]]
  | c :: cs =>
    let rest := splitChar sep cs
    if c = sep then
      [] :: rest
    else
      match rest with
      | g :: gs => (c :: g) :: gs
      | [] => [[c]]

/-- String-level wrapper for `splitChar`. -/
def jsSplit (sep : Char) (s : String) : List String :=
  (splitChar sep s.toList).map String.mk

/-- Does the list start with the character `c`?  Models `startsWith` for a
one-character prefix. -/
def headIs (c : Char) : List Char → Bool
  | [] => false
  | x :: _ => x = c

/-- Model of the JavaScript `value.indexOf(c)` for a single character,
returning `none` where JS returns `-1`. -/
def indexOfChar (c : Char) : List Char → Option Nat
  | [] => none
  | x :: xs => if x = c then some 0 else (indexOfChar c xs).map (· + 1)

/-- Model of the JavaScript `value.lastIndexOf(c)` for a single character,
returning `none` where JS returns `-1`. -/
def lastIndexOfChar (c : Char) (l : List Char) : Option Nat :=
  (indexOfChar c l.reverse).map (fun i => l.length - 1 - i)

/-- Model of `trimmed.slice(0, trimmed.lastIndexOf(c))` as the source applies
it: everything strictly before the last occurrence of `c` (when `c` is absent,
JS yields `slice(0, -1)`, i.e. all but the last character). -/
def sliceBeforeLast (c : Char) (l : List Char) : List Char :=
  match lastIndexOfChar c l with
  | some i => l.take i
  | none => l.take (l.length - 1)

/-- Consume a maximal run of ASCII digits; returns the run and the rest. -/
def takeDigits : List Char → List Char × List Char
  | [] => ([], [])
  | c :: cs =>
    if c.isDigit then
      let p := takeDigits cs
      (c :: p.1, p.2)
    else
      ([], c :: cs)

/-- Consume one to three digits followed by the literal character `sep`;
`none` if the shape is not matched. -/
def eatDigits13Then (sep : Char) (l : List Char) : Option (List Char) :=
  let p := takeDigits l
  if 1 ≤ p.1.length ∧ p.1.length ≤ 3 then
    match p.2 with
    | c :: rest => if c = sep then some rest else none
    | [] => none
  else none

/-- Model of the source's regular expression
`IPV4_WITH_PORT_RE = /^(?:\d{1,3}\.){3}\d{1,3}:\d+$/` as a direct matcher:
three groups of one-to-three digits each followed by a dot, then one-to-three
digits, a colon, and one or more digits reaching the end.  (Since `.` and `:`
are not digits, greedy digit runs need no backtracking, so this matcher is
equivalent to the anchored regex.) -/
def ipv4WithPortRe (l : List Char) : Bool :=
  match eatDigits13Then '.' l with
  | none => false
  | some r1 =>
    match eatDigits13Then '.' r1 with
    | none => false
    | some r2 =>
      match eatDigits13Then '.' r2 with
      | none => false
      | some r3 =>
        match eatDigits13Then ':' r3 with
        | none => false
        | some r4 =>
          let p := takeDigits r4
          decide (1 ≤ p.1.length) && p.2.isEmpty

/-- String-level wrapper for the `IPV4_WITH_PORT_RE` test. -/
def ipv4WithPortTest (s : String) : Bool :=
  ipv4WithPortRe s.toList

/-- `INVALID_IP_TOKENS` from `constants.ts`: tokens treated as null. -/
def INVALID_IP_TOKENS : List String :=
  ["", "unknown", "null", "none"]

/-- Embedding of `normalizeIpCandidate` (ip-extraction, current revision):
trim; reject empty, the invalid placeholder tokens (case-insensitively) and
obfuscated identifiers starting with `_`; extract the inside of a leading
bracket pair; strip the port from an exact `IPv4:port` shape; otherwise
return the trimmed value unchanged. -/
def normalizeIpCandidate : Option String → Option String
  | none => none
  | some value =>
    let trimmed := jsTrim value
    if trimmed = "" then none
    else
      let lower := jsToLower trimmed
      if INVALID_IP_TOKENS.contains lower then none
      else if headIs '_' trimmed.toList then none
      else if headIs '[' trimmed.toList then
        match indexOfChar ']' trimmed.toList with
        | some closingIndex =>
          if 1 < closingIndex then
            some (String.mk ((trimmed.toList.drop 1).take (closingIndex - 1)))
          else none
        | none => none
      else if ipv4WithPortTest trimmed then
        some (String.mk (sliceBeforeLast ':' trimmed.toList))
      else some trimmed

/-- Embedding of `cleanForwardedIdentifier`: strip one matching pair of
double quotes, trim, reject empty; extract the inside of a leading bracket
pair (`slice(1, closingIndex)` when the closing bracket sits at an index
greater than 1); strip the port from an exact `IPv4:port` shape; otherwise
return the trimmed value. -/
def cleanForwardedIdentifier (value : String) : Option String :=
  let unquoted :=
    if headIs '\"' value.toList && headIs '\"' value.toList.reverse
        && 2 ≤ value.toList.length then
      String.mk ((value.toList.drop 1).dropLast)
    else value
  let trimmed := jsTrim unquoted
  if trimmed = "" then none
  else if headIs '[' trimmed.toList then
    match indexOfChar ']' trimmed.toList with
    | some closingIndex =>
      if 1 < closingIndex then
        some (String.mk ((trimmed.toList.drop 1).take (closingIndex - 1)))
      else none
    | none => none
  else if ipv4WithPortTest trimmed then
    some (String.mk (sliceBeforeLast ':' trimmed.toList))
  else some trimmed

/-- One directive of a `Forwarded` group: `directive.split('=')` gives the
raw key (element 0) and raw value (element 1, absent when there is no `=`);
a directive contributes a candidate only when its key, trimmed and
lower-cased, is `for` and `cleanForwardedIdentifier` accepts its trimmed
value. -/
def forDirective (directive : String) : Option String :=
  let parts := jsSplit '=' directive
  match parts.get? 1 with
  | none => none
  | some rawValue =>
    if jsToLower (jsTrim (parts.headD "")) = "for" then
      cleanForwardedIdentifier (jsTrim rawValue)
    else none

/-- One comma-separated group of a `Forwarded` header: trim it, split it on
`;` and return the first directive's accepted candidate, if any. -/
def parseForwardedEntry (entry : String) : Option String :=
  (jsSplit ';' (jsTrim entry)).findSome? forDirective

/-- Embedding of `parseForwarded`: split the header on `,` and return the
first group's accepted `for=` candidate, if any. -/
def parseForwarded (value : String) : Option String :=
  (jsSplit ',' value).findSome? parseForwardedEntry

/-- Embedding of `takeFirstListEntry`: first comma-separated entry, trimmed. -/
def takeFirstListEntry (value : String) : String :=
  jsTrim ((jsSplit ',' value).headD "")

/-- Request headers, modelled as an association list; `Headers.get` is
case-insensitive on the header name. -/
def headersGet (headers : List (String × String)) (name : String) :
    Option String :=
  (headers.find? (fun p => jsToLower p.1 = jsToLower name)).map Prod.snd

/-- Resolution of one header of the precedence list: absent header
contributes nothing; the `forwarded` header goes through `parseForwarded`;
`x-forwarded-for` takes its first comma-separated entry; any other header is
used trimmed; the candidate then passes `normalizeIpCandidate`. -/
def resolveHeader (headers : List (String × String)) (headerName : String) :
    Option String :=
  match headersGet headers headerName with
  | none => none
  | some value =>
    let normalizedName := jsToLower headerName
    if normalizedName = "forwarded" then
      normalizeIpCandidate (parseForwarded value)
    else
      let candidate :=
        if normalizedName = "x-forwarded-for" then takeFirstListEntry value
        else jsTrim value
      normalizeIpCandidate (some candidate)

/-- Embedding of `extractClientIp`: walk the precedence list in order and
return the first header whose candidate survives normalization (each branch
of the source loop `continue`s exactly when its candidate normalizes to
null, which is the `none` fall-through here). -/
def extractClientIp (headers : List (String × String)) :
    List String → Option String
  | [] => none
  | headerName :: rest =>
    match resolveHeader headers headerName with
    | some ip => some ip
    | none => extractClientIp headers rest

/-- `FNV_OFFSET_BASIS_64` from `constants.ts`. -/
def FNV_OFFSET_BASIS_64 : Nat := 0xcbf29ce484222325

/-- `FNV_PRIME_64` from `constants.ts`. -/
def FNV_PRIME_64 : Nat := 0x100000001b3

/-- One step of the FNV-1a 64 loop: XOR the byte in, multiply by the prime,
and reduce modulo `2 ^ 64` (the source's `& FNV_MASK_64` on `BigInt`s). -/
def fnv1a64Step (hash byte : Nat) : Nat :=
  ((hash ^^^ byte) * FNV_PRIME_64) % 2 ^ 64

/-- The 64-bit FNV-1a accumulator over a byte sequence, before hex
rendering. -/
def fnv1a64 (data : List Nat) : Nat :=
  data.foldl fnv1a64Step FNV_OFFSET_BASIS_64

/-- Lowercase hexadecimal digit, as produced by `BigInt::toString(16)`. -/
def hexDigitChar (n : Nat) : Char :=
  if n < 10 then Char.ofNat (48 + n) else Char.ofNat (87 + n)

/-- Hexadecimal digits of `n`, most significant first, with no leading
zeros; `fuel` bounds the recursion (16 suffices below `2 ^ 64`). -/
def hexChars : Nat → Nat → List Char
  | 0, _ => []
  | fuel + 1, n =>
    if n = 0 then []
    else hexChars fuel (n / 16) ++ [hexDigitChar (n % 16)]

/-- Model of `BigInt::toString(16)` for values below `2 ^ 64`: lowercase
hex, and `"0"` for zero. -/
def bigintToHex16 (n : Nat) : List Char :=
  if n = 0 then ['0'] else hexChars 16 n

/-- Model of `String.prototype.padStart(16, '0')`. -/
def padStart16 (l : List Char) : List Char :=
  List.replicate (16 - l.length) '0' ++ l

/-- Embedding of `fnv1a64Hex` from `hash.ts`: the FNV-1a 64 accumulator
rendered as a zero-left-padded lowercase 16-hex-digit string. -/
def fnv1a64Hex (data : List Nat) : String :=
  String.mk (padStart16 (bigintToHex16 (fnv1a64 data)))

/-- UTF-8 encoding of one code point, as `TextEncoder.encode` produces it. -/
def utf8EncodeChar (c : Char) : List Nat :=
  let n := c.toNat
  if n < 0x80 then [n]
  else if n < 0x800 then [0xc0 + n / 64, 0x80 + n % 64]
  else if n < 0x10000 then
    [0xe0 + n / 4096, 0x80 + n / 64 % 64, 0x80 + n % 64]
  else
    [0xf0 + n / 262144, 0x80 + n / 4096 % 64, 0x80 + n / 64 % 64,
      0x80 + n % 64]

/-- Model of `new TextEncoder().encode(s)`: the UTF-8 bytes of `s`. -/
def utf8Encode (s : String) : List Nat :=
  (s.toList.map utf8EncodeChar).flatten

/-- `DEFAULT_IP_HEADERS` from `constants.ts`. -/
def DEFAULT_IP_HEADERS : List String :=
  ["cf-connecting-ip", "fastly-client-ip", "fly-client-ip",
    "true-client-ip", "forwarded", "x-forwarded-for", "x-real-ip"]

/-- Embedding of `safeTrim` from `utils.ts`. -/
def safeTrim : Option String → Option String
  | none => none
  | some value =>
    let trimmed := jsTrim value
    if trimmed = "" then none else some trimmed

/-- A `url` value as `fingerprint` consumes it: either an already-parsed
`URL` object (of which the source only ever reads `pathname`) or a raw
string. -/
inductive URLVal where
  | url (pathname : String)
  | str (s : String)
deriving DecidableEq

/-- The `FingerprintSource` shape: the source only ever reads `headers`,
the optional `method` and the optional `url`. -/
structure SourceModel where
  headers : List (String × String)
  method : Option String
  url : Option URLVal

/-- `FingerprintTraits` from `types.ts` (`Optional` fields become
`Option`). -/
structure FingerprintTraits where
  ip : Option String
  userAgent : Option String
  acceptLanguage : Option String
  method : Option String
  path : Option String
deriving DecidableEq

/-- `FingerprintOptions` from `types.ts`: every knob optional.  A byte
sequence is `List Nat`, so `hashFn` and `pathNormalizer` are Lean
functions. -/
structure FingerprintOptions where
  includeMethod : Option Bool
  includePath : Option Bool
  hashFn : Option (List Nat → String)
  ipHeaders : Option (List String)
  pathNormalizer : Option (String → String)

/-- `FingerprintResult` from `types.ts`. -/
structure FingerprintResult where
  hash : String
  parts : List String
  traits : FingerprintTraits

/-- Embedding of `isRequestLike` from `utils.ts`: the source looks like a
full `Request` when its `method` is a string and its `url` is a string. -/
def isRequestLike (source : SourceModel) : Bool :=
  source.method.isSome &&
    (match source.url with
     | some (URLVal.str _) => true
     | _ => false)

/-- Embedding of `extractMethod` from `utils.ts` (both branches of the
source return `source.method ?? null`). -/
def extractMethod (source : SourceModel) : Option String :=
  if isRequestLike source then source.method else source.method

/-- Embedding of `extractPath` from `utils.ts`.  `urlParse` models the
host-environment WHATWG parser `new URL(value, 'http://localhost')`,
returning the `pathname` on success and `none` where the constructor
throws; it is a parameter because the URL parser is external to this
repository.  On parse failure the raw string is kept only when it already
starts with `/`; the caller-supplied normalizer, when present, replaces the
resolved path. -/
def extractPath (urlParse : String → Option String) (urlValue : Option URLVal)
    (normalizer : Option (String → String)) : Option String :=
  match urlValue with
  | none => none
  | some u =>
    let path : Option String :=
      match u with
      | URLVal.url pathname => some pathname
      | URLVal.str sv =>
        match urlParse sv with
        | some p => some p
        | none => if headIs '/' sv.toList then some sv else none
    match path with
    | none => none
    | some p => some ((normalizer.map (fun f => f p)).getD p)

/-- Embedding of `buildParts` from `utils.ts`, in the source's push style:
start from the three always-present labeled segments (absent values become
the empty string via `?? ''`) and push `method:`/`path:` segments only when
those traits are non-null. -/
def buildParts (traits : FingerprintTraits) : List String :=
  let segments :=
    ["ip:" ++ traits.ip.getD "", "ua:" ++ traits.userAgent.getD "",
      "al:" ++ traits.acceptLanguage.getD ""]
  let segments :=
    match traits.method with
    | some m => segments ++ ["method:" ++ m]
    | none => segments
  match traits.path with
  | some p => segments ++ ["path:" ++ p]
  | none => segments

/-- Embedding of `fingerprint` from `fingerprint.ts`: build the traits
(IP via `extractClientIp` under the configured precedence, trimmed
User-Agent and Accept-Language, method and path only when opted in),
assemble the parts, join them with `"|"`, UTF-8 encode, and hash with the
caller-supplied `hashFn` or the default `fnv1a64Hex`.  `urlParse` is the
external URL parser threaded through to `extractPath`. -/
def fingerprint (urlParse : String → Option String) (source : SourceModel)
    (options : Option FingerprintOptions) : FingerprintResult :=
  let headers := source.headers
  let traits : FingerprintTraits :=
    { ip := extractClientIp headers
        ((options.bind (fun o => o.ipHeaders)).getD DEFAULT_IP_HEADERS),
      userAgent := safeTrim (headersGet headers "user-agent"),
      acceptLanguage := safeTrim (headersGet headers "accept-language"),
      method :=
        if (options.bind (fun o => o.includeMethod)) = some true then
          extractMethod source
        else none,
      path :=
        if (options.bind (fun o => o.includePath)) = some true then
          extractPath urlParse source.url
            (options.bind (fun o => o.pathNormalizer))
        else none }
  let parts := buildParts traits
  let payload := utf8Encode (String.intercalate "|" parts)
  let hashFn := (options.bind (fun o => o.hashFn)).getD fnv1a64Hex
  { hash := hashFn payload, parts := parts, traits := traits }

/-! ## Helper lemmas -/

/-- A string whose character list starts with `c` is not empty. -/
lemma headIs_ne_empty {c : Char} {t : String} (h : headIs c t.toList = true) :
    t ≠ "" := by
  obtain ⟨data⟩ := t
  cases data with
  | nil => simp [headIs] at h
  | cons x xs => simp [String.ext_iff]

/-- A trimmed candidate that starts with `[` never triggers the earlier
rejection guards of `normalizeIpCandidate`: it is non-empty, it is not one
of the invalid placeholder tokens, and it does not start with `_`. -/
lemma bracket_not_token {t : String} (h : headIs '[' t.toList = true) :
    t ≠ "" ∧ INVALID_IP_TOKENS.contains (jsToLower t) = false ∧
      headIs '_' t.toList = false := by
  obtain ⟨data⟩ := t
  cases data with
  | nil => simp [headIs] at h
  | cons x xs =>
    simp [headIs] at h
    subst h
    refine ⟨by simp [String.ext_iff], ?_, by simp [headIs]⟩
    have hl : lowerChar '[' = '[' := by decide
    simp [INVALID_IP_TOKENS, jsToLower, List.contains, List.any,
      String.ext_iff, hl]

/-- On a candidate whose trimmed form starts with `[`, `normalizeIpCandidate`
reduces to the bracket extraction: the slice strictly between `[` and the
first `]` when the closing bracket sits at an index greater than 1, and
`none` otherwise. -/
lemma normalizeIpCandidate_bracket (value : String)
    (h : headIs '[' (jsTrim value).toList = true) :
    normalizeIpCandidate (some value) =
      (match indexOfChar ']' (jsTrim value).toList with
       | some closingIndex =>
         if 1 < closingIndex then
           some (String.mk (((jsTrim value).toList.drop 1).take
             (closingIndex - 1)))
         else none
       | none => none) := by
  obtain ⟨hne, hcont, hus⟩ := bracket_not_token h
  simp only [normalizeIpCandidate]
  rw [if_neg hne, if_neg (by simp only [hcont]; decide),
    if_neg (by simp only [hus]; decide), if_pos (by simp only [h])]

/-- On an unquoted value whose trimmed form starts with `[`,
`cleanForwardedIdentifier` reduces to the same bracket extraction as
`normalizeIpCandidate`. -/
lemma cleanForwardedIdentifier_bracket (value : String)
    (hq : headIs '\"' value.toList = false)
    (h : headIs '[' (jsTrim value).toList = true) :
    cleanForwardedIdentifier value =
      (match indexOfChar ']' (jsTrim value).toList with
       | some closingIndex =>
         if 1 < closingIndex then
           some (String.mk (((jsTrim value).toList.drop 1).take
             (closingIndex - 1)))
         else none
       | none => none) := by
  have hne := headIs_ne_empty h
  have hun : ((headIs '\"' value.toList &&
      headIs '\"' value.toList.reverse) &&
        decide (2 ≤ value.toList.length)) = false := by
    rw [hq, Bool.false_and, Bool.false_and]
  simp only [cleanForwardedIdentifier, hun, Bool.false_eq_true, if_false]
  rw [if_neg hne, if_pos (by simp only [h])]

/-- Every FNV-1a 64 accumulator value stays below `2 ^ 64`. -/
lemma fnv1a64_lt (data : List Nat) : fnv1a64 data < 2 ^ 64 := by
  have h : ∀ (l : List Nat) (acc : Nat), acc < 2 ^ 64 →
      l.foldl fnv1a64Step acc < 2 ^ 64 := by
    intro l
    induction l with
    | nil => intro acc h; simpa using h
    | cons b bs ih =>
      intro acc _
      exact ih _ (Nat.mod_lt _ (by norm_num))
  exact h data FNV_OFFSET_BASIS_64 (by norm_num [FNV_OFFSET_BASIS_64])

/-- The fuel argument bounds the number of hex digits produced. -/
lemma hexChars_length_le (fuel : Nat) : ∀ n : Nat,
    (hexChars fuel n).length ≤ fuel := by
  induction fuel with
  | zero => intro n; simp [hexChars]
  | succ f ih =>
    intro n
    by_cases h : n = 0
    · simp [hexChars, h]
    · simp only [hexChars, h, if_false]
      rw [List.length_append]
      have := ih (n / 16)
      simp
      omega

/-! ## Claim theorems -/

/-- Claim C1: for every candidate that reaches the port-stripping stage of
`normalizeIpCandidate` — its trimmed form is non-empty, is not one of the
invalid placeholder tokens, and starts with neither `_` nor `[` (candidates
failing those guards are rejected outright, per rules 1–3 of the
normalization, settled by the claim on placeholder rejection) — the result
strips from the last `:` onward exactly when the trimmed candidate matches
the exact anchored shape "IPv4 dotted-quad, `:`, one or more digits", and
otherwise is the trimmed value unchanged.  Concretely, the header value
`203.0.113.10:1234` resolves to `203.0.113.10`, and the IPv4-mapped IPv6
value `::ffff:203.0.113.10` resolves to itself unchanged, never being
treated as having a port. -/
theorem c1_ipv4_port_stripping :
    (∀ value : String,
      jsTrim value ≠ "" →
      INVALID_IP_TOKENS.contains (jsToLower (jsTrim value)) = false →
      headIs '_' (jsTrim value).toList = false →
      headIs '[' (jsTrim value).toList = false →
      normalizeIpCandidate (some value) =
        some (if ipv4WithPortTest (jsTrim value) then
                String.mk (sliceBeforeLast ':' (jsTrim value).toList)
              else jsTrim value))
    ∧ extractClientIp [("x-real-ip", "203.0.113.10:1234")] ["x-real-ip"] =
        some "203.0.113.10"
    ∧ extractClientIp [("x-real-ip", "::ffff:203.0.113.10")] ["x-real-ip"] =
        some "::ffff:203.0.113.10" := by
  refine ⟨?_, rfl, rfl⟩
  intro value h1 h2 h3 h4
  simp only [normalizeIpCandidate]
  rw [if_neg h1, if_neg (by simp only [h2]; decide),
    if_neg (by simp only [h3]; decide), if_neg (by simp only [h4]; decide)]
  cases h : ipv4WithPortTest (jsTrim value) <;> simp [h]

/-- Witness for C1 at the concrete candidate `203.0.113.10:1234`. -/
theorem c1_ipv4_port_stripping_witness :
    jsTrim "203.0.113.10:1234" ≠ ""
    ∧ normalizeIpCandidate (some "203.0.113.10:1234") =
        some (if ipv4WithPortTest (jsTrim "203.0.113.10:1234") then
                String.mk
                  (sliceBeforeLast ':' (jsTrim "203.0.113.10:1234").toList)
              else jsTrim "203.0.113.10:1234") :=
  ⟨by decide,
    c1_ipv4_port_stripping.1 "203.0.113.10:1234" (by decide) (by decide)
      (by decide) (by decide)⟩

/-- Counterexample to claim C2 as stated.  The first comma-separated group
`for=""` of the header `for="", for=203.0.113.7` contains a syntactically
present `for=` directive (key `for`, value `""`) whose value is invalid
(empty once unquoted), so under the claim no later group of the same header
may be consulted and the resolution should fall through to the next header
(here: yield no IP).  The code instead keeps scanning inside the same
header and returns `203.0.113.7` from the second group. -/
theorem c2_first_group_counterexample :
    (jsSplit '=' "for=\"\"").headD "" = "for"
    ∧ (jsSplit '=' "for=\"\"").get? 1 = some "\"\""
    ∧ parseForwarded "for=\"\"" = none
    ∧ parseForwarded "for=\"\", for=203.0.113.7" = some "203.0.113.7"
    ∧ extractClientIp [("forwarded", "for=\"\", for=203.0.113.7")]
        ["forwarded"] = some "203.0.113.7" :=
  ⟨rfl, rfl, rfl, rfl, rfl⟩

/-- Claim C2, amended: parsing a `Forwarded` header scans the
comma-separated groups (and `;`-separated directives within each group) in
order and stops at the first `for=` directive whose value survives
`cleanForwardedIdentifier` (non-empty after unquoting and trimming, and
well-bracketed if bracketed); a `for=` directive whose value fails that
cleaning (for example `for=""`) falls through to later directives and later
groups of the same header.  A candidate that survives cleaning is returned
even when it is an invalid IP (for example `for=unknown`), in which case no
later group is consulted and the invalid resolved candidate falls through
to the next header of the precedence list. -/
theorem c2_forwarded_group_scan :
    (∀ (e : String) (rest : List String) (c : String),
      parseForwardedEntry e = some c →
      List.findSome? parseForwardedEntry (e :: rest) = some c)
    ∧ (∀ (e : String) (rest : List String),
      parseForwardedEntry e = none →
      List.findSome? parseForwardedEntry (e :: rest) =
        List.findSome? parseForwardedEntry rest)
    ∧ (∀ (d : String) (rest : List String) (c : String),
      forDirective d = some c →
      List.findSome? forDirective (d :: rest) = some c)
    ∧ parseForwarded "for=unknown, for=203.0.113.61" = some "unknown"
    ∧ extractClientIp
        [("forwarded", "for=unknown, for=203.0.113.61"),
          ("x-forwarded-for", "203.0.113.195")]
        ["forwarded", "x-forwarded-for"] = some "203.0.113.195"
    ∧ parseForwarded "for=\"\", for=203.0.113.7" = some "203.0.113.7" := by
  refine ⟨?_, ?_, ?_, rfl, rfl, rfl⟩
  · intro e rest c h
    simp [List.findSome?_cons, h]
  · intro e rest h
    simp [List.findSome?_cons, h]
  · intro d rest c h
    simp [List.findSome?_cons, h]

/-- Witness for the amended C2: the group `for=unknown` yields a cleaned
(though invalid) candidate, so the scan stops there and ignores the later
group. -/
theorem c2_forwarded_group_scan_witness :
    parseForwardedEntry "for=unknown" = some "unknown"
    ∧ List.findSome? parseForwardedEntry ["for=unknown", " for=9.9.9.9"] =
        some "unknown" :=
  ⟨rfl, c2_forwarded_group_scan.1 "for=unknown" [" for=9.9.9.9"] "unknown"
    rfl⟩

/-- Claim C3: `extractClientIp` iterates the precedence list in order and
returns the first header whose candidate survives normalization without
scanning later headers (first conjunct); a header whose candidate is
invalid falls through to the next header (second conjunct).  Concretely:
with `x-forwarded-for` and `fly-client-ip` both set, the precedence
`[fly-client-ip, x-forwarded-for]` yields `203.0.113.5` and the reversed
precedence yields `198.51.100.8`; `forwarded: for=unknown` plus
`x-forwarded-for: 203.0.113.195, 198.51.100.178` under
`[forwarded, x-forwarded-for]` yields the leftmost trimmed
X-Forwarded-For entry `203.0.113.195`. -/
theorem c3_precedence_first_match :
    (∀ (headers : List (String × String)) (n : String) (rest : List String)
        (ip : String),
      resolveHeader headers n = some ip →
      extractClientIp headers (n :: rest) = some ip)
    ∧ (∀ (headers : List (String × String)) (n : String)
        (rest : List String),
      resolveHeader headers n = none →
      extractClientIp headers (n :: rest) = extractClientIp headers rest)
    ∧ extractClientIp
        [("x-forwarded-for", "198.51.100.8, 198.51.100.9"),
          ("fly-client-ip", "203.0.113.5")]
        ["fly-client-ip", "x-forwarded-for"] = some "203.0.113.5"
    ∧ extractClientIp
        [("x-forwarded-for", "198.51.100.8, 198.51.100.9"),
          ("fly-client-ip", "203.0.113.5")]
        ["x-forwarded-for", "fly-client-ip"] = some "198.51.100.8"
    ∧ extractClientIp
        [("forwarded", "for=unknown"),
          ("x-forwarded-for", "203.0.113.195, 198.51.100.178")]
        ["forwarded", "x-forwarded-for"] = some "203.0.113.195"
    ∧ extractClientIp
        [("x-forwarded-for", " 198.51.100.8 , 198.51.100.9 ")]
        ["x-forwarded-for"] = some "198.51.100.8" := by
  refine ⟨?_, ?_, rfl, rfl, rfl, rfl⟩
  · intro headers n rest ip h
    simp [extractClientIp, h]
  · intro headers n rest h
    simp [extractClientIp, h]

/-- Witness for C3: the first precedence header resolves, so the result is
returned without consulting the rest of the list. -/
theorem c3_precedence_first_match_witness :
    resolveHeader [("fly-client-ip", "203.0.113.5")] "fly-client-ip" =
      some "203.0.113.5"
    ∧ extractClientIp [("fly-client-ip", "203.0.113.5")]
        ["fly-client-ip", "x-forwarded-for"] = some "203.0.113.5" :=
  ⟨rfl, c3_precedence_first_match.1 [("fly-client-ip", "203.0.113.5")]
    "fly-client-ip" ["x-forwarded-for"] "203.0.113.5" rfl⟩

/-- Claim C4: for every candidate whose trimmed form starts with `[`, the
resolved IP is everything strictly between `[` and the first `]`; when no
closing bracket exists, or it occurs at position at most 1 (empty
brackets), the candidate is invalid (first conjunct).  The same bracket
rule applies identically in the RFC 7239 path (`cleanForwardedIdentifier`)
and the plain-header path (`normalizeIpCandidate`): on unquoted bracketed
values the two agree (second conjunct).  Concretely, the header
`forwarded: for="[2001:db8:cafe::17]:4711";proto=https` yields the ip
`2001:db8:cafe::17`. -/
theorem c4_bracketed_ipv6 :
    (∀ value : String,
      headIs '[' (jsTrim value).toList = true →
      normalizeIpCandidate (some value) =
        (match indexOfChar ']' (jsTrim value).toList with
         | some closingIndex =>
           if 1 < closingIndex then
             some (String.mk (((jsTrim value).toList.drop 1).take
               (closingIndex - 1)))
           else none
         | none => none))
    ∧ (∀ value : String,
      headIs '\"' value.toList = false →
      headIs '[' (jsTrim value).toList = true →
      cleanForwardedIdentifier value = normalizeIpCandidate (some value))
    ∧ extractClientIp
        [("forwarded", "for=\"[2001:db8:cafe::17]:4711\";proto=https")]
        ["forwarded"] = some "2001:db8:cafe::17" := by
  refine ⟨fun value h => normalizeIpCandidate_bracket value h,
    fun value hq h => ?_, rfl⟩
  rw [cleanForwardedIdentifier_bracket value hq h,
    normalizeIpCandidate_bracket value h]

/-- Witness for C4 at the concrete candidate `[2001:db8::1]:4711`. -/
theorem c4_bracketed_ipv6_witness :
    headIs '[' (jsTrim "[2001:db8::1]:4711").toList = true
    ∧ normalizeIpCandidate (some "[2001:db8::1]:4711") =
        (match indexOfChar ']' (jsTrim "[2001:db8::1]:4711").toList with
         | some closingIndex =>
           if 1 < closingIndex then
             some (String.mk
               (((jsTrim "[2001:db8::1]:4711").toList.drop 1).take
                 (closingIndex - 1)))
           else none
         | none => none) :=
  ⟨rfl, c4_bracketed_ipv6.1 "[2001:db8::1]:4711" rfl⟩

/-- Claim C5: every candidate whose trimmed form starts with `_` (an
RFC 7239 obfuscated identifier) is rejected by `normalizeIpCandidate`, and
so is every candidate whose trimmed, lower-cased form is one of the
placeholder tokens `unknown`, `null`, `none` or the empty string.
Concretely, `forwarded: for="_gazonk"` yields no ip. -/
theorem c5_obfuscated_rejection :
    (∀ value : String,
      headIs '_' (jsTrim value).toList = true →
      normalizeIpCandidate (some value) = none)
    ∧ (∀ value : String,
      INVALID_IP_TOKENS.contains (jsToLower (jsTrim value)) = true →
      normalizeIpCandidate (some value) = none)
    ∧ extractClientIp [("forwarded", "for=\"_gazonk\"")] ["forwarded"] = none
    ∧ normalizeIpCandidate (some "unknown") = none
    ∧ normalizeIpCandidate (some "NULL") = none
    ∧ normalizeIpCandidate (some "None") = none
    ∧ normalizeIpCandidate (some " ") = none := by
  refine ⟨?_, ?_, rfl, rfl, rfl, rfl, rfl⟩
  · intro value h
    have hne := headIs_ne_empty h
    simp only [normalizeIpCandidate]
    rw [if_neg hne]
    by_cases hc : INVALID_IP_TOKENS.contains (jsToLower (jsTrim value)) = true
    · rw [if_pos hc]
    · rw [if_neg hc, if_pos (by simp only [h])]
  · intro value hc
    by_cases hne : jsTrim value = ""
    · simp only [normalizeIpCandidate]
      rw [if_pos hne]
    · simp only [normalizeIpCandidate]
      rw [if_neg hne, if_pos hc]

/-- Witness for C5 at the concrete candidate `_gazonk`. -/
theorem c5_obfuscated_rejection_witness :
    headIs '_' (jsTrim "_gazonk").toList = true
    ∧ normalizeIpCandidate (some "_gazonk") = none :=
  ⟨rfl, c5_obfuscated_rejection.1 "_gazonk" rfl⟩

/-- Claim C6: for every trait record, `buildParts` produces segments in the
fixed order ip, ua, al, method, path; absent ip/userAgent/acceptLanguage
are serialized as the label with an empty value, so those three segments
are always present (the first three of the list); the `method:` and
`path:` segments are omitted entirely when absent, as the length equation
shows. -/
theorem c6_parts_shape : ∀ t : FingerprintTraits,
    buildParts t =
      ["ip:" ++ t.ip.getD "", "ua:" ++ t.userAgent.getD "",
        "al:" ++ t.acceptLanguage.getD ""]
        ++ (match t.method with | some m => ["method:" ++ m] | none => [])
        ++ (match t.path with | some p => ["path:" ++ p] | none => [])
    ∧ (buildParts t).take 3 =
      ["ip:" ++ t.ip.getD "", "ua:" ++ t.userAgent.getD "",
        "al:" ++ t.acceptLanguage.getD ""]
    ∧ (buildParts t).length =
      3 + (match t.method with | some _ => 1 | none => 0)
        + (match t.path with | some _ => 1 | none => 0) := by
  intro t
  obtain ⟨ip, ua, al, m, p⟩ := t
  cases m <;> cases p <;> simp [buildParts]

/-- Claim C7: the hash of every fingerprint result equals the configured
hash function — the caller-supplied `hashFn` when provided, otherwise the
default `fnv1a64Hex` — applied to the UTF-8 bytes of the returned parts
joined by `|`; in particular a custom `hashFn` makes the result hash equal
`hashFn` of those bytes exactly, bypassing FNV-1a entirely. -/
theorem c7_hash_contract :
    (∀ (urlParse : String → Option String) (source : SourceModel)
        (options : Option FingerprintOptions),
      (fingerprint urlParse source options).hash =
        ((options.bind (fun o => o.hashFn)).getD fnv1a64Hex)
          (utf8Encode (String.intercalate "|"
            (fingerprint urlParse source options).parts)))
    ∧ (∀ (urlParse : String → Option String) (source : SourceModel)
        (o : FingerprintOptions) (f : List Nat → String),
      o.hashFn = some f →
      (fingerprint urlParse source (some o)).hash =
        f (utf8Encode (String.intercalate "|"
          (fingerprint urlParse source (some o)).parts))) := by
  constructor
  · intro urlParse source options
    rfl
  · intro urlParse source o f h
    simp [fingerprint, h]

/-- Witness for C7 with a concrete constant custom hash function. -/
theorem c7_hash_contract_witness :
    (FingerprintOptions.mk none none (some (fun _ => "custom")) none
        none).hashFn = some (fun _ => "custom")
    ∧ (fingerprint (fun _ => none) (SourceModel.mk [] none none)
        (some (FingerprintOptions.mk none none (some (fun _ => "custom"))
          none none))).hash =
      (fun _ => "custom")
        (utf8Encode (String.intercalate "|"
          (fingerprint (fun _ => none) (SourceModel.mk [] none none)
            (some (FingerprintOptions.mk none none
              (some (fun _ => "custom")) none none))).parts)) :=
  ⟨rfl, c7_hash_contract.2 (fun _ => none) (SourceModel.mk [] none none)
    (FingerprintOptions.mk none none (some (fun _ => "custom")) none none)
    (fun _ => "custom") rfl⟩

/-- Claim C8: the exported hash primitive implements FNV-1a 64-bit
exactly — the accumulator starts at the offset basis, each byte is XORed
in and the result multiplied by the prime modulo `2 ^ 64` (first two
conjuncts), the rendering is always a 16-character string (zero-left-padded
lowercase hex, third conjunct), and the hash of the UTF-8 bytes of
`hello` is exactly `a430d84680aabd0b`. -/
theorem c8_fnv1a64 :
    fnv1a64 [] = 0xcbf29ce484222325
    ∧ (∀ (bs : List Nat) (b : Nat),
      fnv1a64 (bs ++ [b]) = ((fnv1a64 bs) ^^^ b) * 0x100000001b3 % 2 ^ 64)
    ∧ (∀ data : List Nat, (fnv1a64Hex data).length = 16)
    ∧ fnv1a64Hex (utf8Encode "hello") = "a430d84680aabd0b" := by
  refine ⟨rfl, ?_, ?_, by decide⟩
  · intro bs b
    simp [fnv1a64, List.foldl_append, fnv1a64Step, FNV_PRIME_64]
  · intro data
    have h1 : (bigintToHex16 (fnv1a64 data)).length ≤ 16 := by
      unfold bigintToHex16
      split
      · simp
      · exact hexChars_length_le 16 _
    simp only [fnv1a64Hex, padStart16, String.length]
    rw [List.length_append, List.length_replicate]
    omega

/-- Claim C9: fingerprinting is deterministic.  The embedding of
`fingerprint` is a pure function of the url parser, the source fields and
the options (which carry any caller-supplied `hashFn` and
`pathNormalizer` as pure functions), so two calls with identical headers,
method, url and options produce identical hash, parts and traits; there is
no hidden state, randomness or wall-clock dependence anywhere in the
pipeline. -/
theorem c9_determinism :
    ∀ (urlParse : String → Option String) (s1 s2 : SourceModel)
      (o1 o2 : Option FingerprintOptions),
    s1.headers = s2.headers → s1.method = s2.method → s1.url = s2.url →
    o1 = o2 →
    (fingerprint urlParse s1 o1).hash = (fingerprint urlParse s2 o2).hash
    ∧ (fingerprint urlParse s1 o1).parts = (fingerprint urlParse s2 o2).parts
    ∧ (fingerprint urlParse s1 o1).traits =
        (fingerprint urlParse s2 o2).traits := by
  intro urlParse s1 s2 o1 o2 hh hm hu ho
  obtain ⟨h1, m1, u1⟩ := s1
  obtain ⟨h2, m2, u2⟩ := s2
  simp only at hh hm hu
  subst hh
  subst hm
  subst hu
  subst ho
  exact ⟨rfl, rfl, rfl⟩

/-- Witness for C9 at a concrete source and options. -/
theorem c9_determinism_witness :
    (SourceModel.mk [("user-agent", "UA")] none none).headers =
      (SourceModel.mk [("user-agent", "UA")] none none).headers
    ∧ ((fingerprint (fun _ => none)
          (SourceModel.mk [("user-agent", "UA")] none none) none).hash =
        (fingerprint (fun _ => none)
          (SourceModel.mk [("user-agent", "UA")] none none) none).hash
      ∧ (fingerprint (fun _ => none)
          (SourceModel.mk [("user-agent", "UA")] none none) none).parts =
        (fingerprint (fun _ => none)
          (SourceModel.mk [("user-agent", "UA")] none none) none).parts
      ∧ (fingerprint (fun _ => none)
          (SourceModel.mk [("user-agent", "UA")] none none) none).traits =
        (fingerprint (fun _ => none)
          (SourceModel.mk [("user-agent", "UA")] none none) none).traits) :=
  ⟨rfl, c9_determinism (fun _ => none)
    (SourceModel.mk [("user-agent", "UA")] none none)
    (SourceModel.mk [("user-agent", "UA")] none none) none none
    rfl rfl rfl rfl⟩

/-- Claim C10: the invalid-placeholder-token and underscore checks of
`normalizeIpCandidate` run before the bracket branch and are not re-applied
to the extracted bracket contents, so a bracketed placeholder or obfuscated
token is returned as the IP: the bare values `unknown` and `_gazonk` are
rejected, yet `[unknown]` resolves to `unknown` and `[_gazonk]` to
`_gazonk`, both at the normalization level and through the full header
resolver. -/
theorem c10_bracket_revalidation_gap :
    normalizeIpCandidate (some "unknown") = none
    ∧ normalizeIpCandidate (some "_gazonk") = none
    ∧ normalizeIpCandidate (some "[unknown]") = some "unknown"
    ∧ normalizeIpCandidate (some "[_gazonk]") = some "_gazonk"
    ∧ extractClientIp [("x-real-ip", "[unknown]")] ["x-real-ip"] =
        some "unknown"
    ∧ extractClientIp [("x-real-ip", "[_gazonk]")] ["x-real-ip"] =
        some "_gazonk" :=
  ⟨rfl, rfl, rfl, rfl, rfl, rfl⟩

end Fpyx
